import Mathlib

/-!
# tinyoscquery — verification of the node-tree model and its JSON codec

A shallow embedding of the core of the `tinyoscquery` repository:

* `shared/node.py` — the OSC type mapping (`TypeMappings`,
  `OSC_Type_String_to_Python_Type`, `Python_Type_List_to_OSC_Type`),
  the node tree (`OSCQueryNode.find_subnode`, `OSCQueryNode.add_child_node`,
  `OSCQueryNode.__iter__`), the JSON encoder (`OSCNodeEncoder`) and
  `OSCHostInfo`;
* `query.py` — the JSON decoder (`OSCQueryClient._make_node_from_json`) and
  host-info decoding (`OSCQueryClient.get_host_info`);
* `queryservice.py` — the HTTP GET dispatch (`OSCQueryHTTPHandler.do_GET`).

Modelling conventions:

* Python `None` and JSON `null` are the same Python object after
  `json.loads`; a node attribute holding `None` is modelled as `Option.none`,
  while the literal `null` appearing *inside* a JSON document is `Json.null`.
* JSON numbers are modelled as integers, with a separate constructor for
  float-typed numbers of integral value (`json.dumps` distinguishes `5` from
  `5.0`); non-integral floats are outside the model, and no claim below
  depends on them.
* Python exceptions are modelled by `Except PyErr`; an uncaught exception on
  some input is an `.error` result on that input.
* Mutation (`add_child_node` mutates the tree in place) is modelled by
  returning the updated tree.  The recursion of `add_child_node` is bounded
  by a fuel parameter, matching Python's recursion limit.
* Python object identity (the `child == self` guard of `add_child_node`,
  which is identity because `OSCQueryNode` defines no `__eq__`) is modelled
  by a Boolean parameter: the only caller that can pass an object identical
  to the tree root is the external entry point, and the recursive call for a
  synthesized parent always passes a freshly allocated node.
-/

namespace TinyOSC

/-- Model of the four Python type objects that can appear in a node's
`type_` list (`int`, `float`, `bool`, `str`), the values of
`TypeMappings._OSC_TO_PYTHON_TYPES`. -/
inductive PyType where
  | int
  | float
  | bool
  | str
deriving DecidableEq, Repr

/-- Model of a JSON document / a Python value produced by `json.loads`.
`num` is an `int`-typed number, `flt` a `float`-typed number of integral
value (see the module comment). -/
inductive Json where
  | null
  | bool (b : Bool)
  | num (n : Int)
  | flt (n : Int)
  | str (s : String)
  | arr (elems : List Json)
  | obj (fields : List (String × Json))
deriving Repr

mutual

def jsonBEq : Json → Json → Bool
  | .null, .null => true
  | .bool a, .bool b => a == b
  | .num a, .num b => a == b
  | .flt a, .flt b => a == b
  | .str a, .str b => a == b
  | .arr a, .arr b => jsonBEqList a b
  | .obj a, .obj b => jsonBEqFields a b
  | _, _ => false

def jsonBEqList : List Json → List Json → Bool
  | [], [] => true
  | x :: xs, y :: ys => jsonBEq x y && jsonBEqList xs ys
  | _, _ => false

def jsonBEqFields : List (String × Json) → List (String × Json) → Bool
  | [], [] => true
  | (k, x) :: xs, (l, y) :: ys => k == l && jsonBEq x y && jsonBEqFields xs ys
  | _, _ => false

end

mutual

theorem jsonBEq_iff : ∀ a b : Json, jsonBEq a b = true ↔ a = b
  | .null, .null => by simp [jsonBEq]
  | .bool _, .bool _ => by simp [jsonBEq]
  | .num _, .num _ => by simp [jsonBEq]
  | .flt _, .flt _ => by simp [jsonBEq]
  | .str _, .str _ => by simp [jsonBEq]
  | .arr x, .arr y => by simp [jsonBEq, jsonBEqList_iff x y]
  | .obj x, .obj y => by simp [jsonBEq, jsonBEqFields_iff x y]
  | .null, .bool _ | .null, .num _ | .null, .flt _ | .null, .str _
  | .null, .arr _ | .null, .obj _
  | .bool _, .null | .bool _, .num _ | .bool _, .flt _ | .bool _, .str _
  | .bool _, .arr _ | .bool _, .obj _
  | .num _, .null | .num _, .bool _ | .num _, .flt _ | .num _, .str _
  | .num _, .arr _ | .num _, .obj _
  | .flt _, .null | .flt _, .bool _ | .flt _, .num _ | .flt _, .str _
  | .flt _, .arr _ | .flt _, .obj _
  | .str _, .null | .str _, .bool _ | .str _, .num _ | .str _, .flt _
  | .str _, .arr _ | .str _, .obj _
  | .arr _, .null | .arr _, .bool _ | .arr _, .num _ | .arr _, .flt _
  | .arr _, .str _ | .arr _, .obj _
  | .obj _, .null | .obj _, .bool _ | .obj _, .num _ | .obj _, .flt _
  | .obj _, .str _ | .obj _, .arr _ => by simp [jsonBEq]

theorem jsonBEqList_iff : ∀ a b : List Json, jsonBEqList a b = true ↔ a = b
  | [], [] => by simp [jsonBEqList]
  | x :: xs, y :: ys => by
      simp [jsonBEqList, jsonBEq_iff x y, jsonBEqList_iff xs ys]
  | [], _ :: _ => by simp [jsonBEqList]
  | _ :: _, [] => by simp [jsonBEqList]

theorem jsonBEqFields_iff :
    ∀ a b : List (String × Json), jsonBEqFields a b = true ↔ a = b
  | [], [] => by simp [jsonBEqFields]
  | (k, x) :: xs, (l, y) :: ys => by
      simp [jsonBEqFields, jsonBEq_iff x y, jsonBEqFields_iff xs ys,
        Prod.ext_iff, and_assoc]
  | [], _ :: _ => by simp [jsonBEqFields]
  | _ :: _, [] => by simp [jsonBEqFields]

end

instance : DecidableEq Json := fun a b => decidable_of_iff _ (jsonBEq_iff a b)

instance {ε α : Type} [DecidableEq ε] [DecidableEq α] :
    DecidableEq (Except ε α) := fun a b =>
  match a, b with
  | .ok x, .ok y =>
    if h : x = y then .isTrue (by rw [h]) else .isFalse (by simp [h])
  | .error x, .error y =>
    if h : x = y then .isTrue (by rw [h]) else .isFalse (by simp [h])
  | .ok _, .error _ => .isFalse (by simp)
  | .error _, .ok _ => .isFalse (by simp)

/-- `true` iff an `Except` computation succeeded. -/
def isOkE {ε α : Type} : Except ε α → Bool
  | .ok _ => true
  | .error _ => false

/-! ## Type mapping (`TypeMappings`, node.py lines 345-423) -/

/-- `TypeMappings.OSC_TO_PYTHON_TYPES`: the wire tag → Python type map
(`i`→int; `f`,`h`,`d`,`t`→float; `T`,`F`→bool; `s`→str); `none` models a
`KeyError` for an unrecognized tag. -/
def OSC_TO_PYTHON_TYPES (c : Char) : Option PyType :=
  if c = 'i' then some .int
  else if c = 'f' ∨ c = 'h' ∨ c = 'd' ∨ c = 't' then some .float
  else if c = 'T' ∨ c = 'F' then some .bool
  else if c = 's' then some .str
  else none

/-- `TypeMappings.PYTHON_TO_OSC_TYPES`: canonical tag per Python type
(total, since the dictionary covers all four types of the model). -/
def PYTHON_TO_OSC_TYPES : PyType → Char
  | .int => 'i'
  | .float => 'f'
  | .bool => 'T'
  | .str => 's'

/-- Model of the Python exceptions the embedded code can raise. -/
inductive PyErr where
  | valueError (msg : String)
  | nodeError (msg : String)
  | keyError (key : String)
  | typeError (msg : String)
  | attributeError (msg : String)
  | indexError (msg : String)
  | recursionError
  /-- Marker for branches of the functional translation that the source
  cannot reach (e.g. an `appendAt` miss right after a successful
  `find_subnode` at the same path); proved unreachable below. -/
  | unreachableBranch
deriving DecidableEq, Repr

/-- Core of `OSC_Type_String_to_Python_Type`: per-character lookup in
`OSC_TO_PYTHON_TYPES`; a `KeyError` is re-raised as
`ValueError("Unknown OSC type when converting! ...")`. -/
def oscCharsToPython : List Char → Except PyErr (List PyType)
  | [] => .ok []
  | c :: cs =>
    match OSC_TO_PYTHON_TYPES c with
    | none => .error (.valueError "Unknown OSC type when converting!")
    | some t =>
      match oscCharsToPython cs with
      | .error e => .error e
      | .ok ts => .ok (t :: ts)

/-- `OSC_Type_String_to_Python_Type` applied to a `str` argument. -/
def OSC_Type_String_to_Python_Type (s : String) : Except PyErr (List PyType) :=
  oscCharsToPython s.toList

/-- `Python_Type_List_to_OSC_Type`: concatenates the canonical tag of each
type in order. -/
def Python_Type_List_to_OSC_Type (ts : List PyType) : String :=
  String.mk (ts.map PYTHON_TO_OSC_TYPES)

example : OSC_Type_String_to_Python_Type "ii" = .ok [.int, .int] := by decide
example : Python_Type_List_to_OSC_Type [.int, .float] = "if" := by decide
example : isOkE (OSC_Type_String_to_Python_Type "ix") = false := by decide

/-! ## Host info and nodes (node.py lines 119-342) -/

/-- A Python value stored in an `OSCHostInfo` slot: `None`, a value that
came from (or can go to) JSON, or — reachable through the missing call
parentheses in `get_host_info` (query.py line 287) — the *bound method*
`self._get_ip_str` itself.  The method carries the string a call would
have returned. -/
inductive PyVal where
  | pyNone
  | js (j : Json)
  | boundMethodGetIpStr (ip : String)
deriving DecidableEq, Repr

/-- `OSCHostInfo` (node.py lines 296-342); slots in `__init__` assignment
order (`name`, `osc_ip`, `osc_port`, `osc_transport`, `ws_ip`, `ws_port`,
`extensions`), which is the order `vars(o)` yields them to the encoder. -/
structure OSCHostInfo where
  name : PyVal
  osc_ip : PyVal
  osc_port : PyVal
  osc_transport : PyVal
  ws_ip : PyVal
  ws_port : PyVal
  extensions : PyVal
deriving DecidableEq, Repr

/-- `OSCQueryNode` (node.py lines 129-271); fields in `__init__` assignment
order (`contents`, `full_path`, `access`, `type_`, `value`, `description`,
`host_info`), which is the order `vars(o)` yields them to the encoder.
`full_path`, `access` and `description` hold raw decoded JSON values, as
the decoder stores them without shape checks. -/
inductive OSCQueryNode where
  | mk (contents : Option (List OSCQueryNode))
       (full_path : Option Json)
       (access : Option Json)
       (type_ : Option (List PyType))
       (value : Option (List Json))
       (description : Option Json)
       (host_info : Option OSCHostInfo)

namespace OSCQueryNode

def contents : OSCQueryNode → Option (List OSCQueryNode)
  | .mk c _ _ _ _ _ _ => c

def full_path : OSCQueryNode → Option Json
  | .mk _ f _ _ _ _ _ => f

def access : OSCQueryNode → Option Json
  | .mk _ _ a _ _ _ _ => a

def type_ : OSCQueryNode → Option (List PyType)
  | .mk _ _ _ t _ _ _ => t

def value : OSCQueryNode → Option (List Json)
  | .mk _ _ _ _ v _ _ => v

def description : OSCQueryNode → Option Json
  | .mk _ _ _ _ _ d _ => d

def host_info : OSCQueryNode → Option OSCHostInfo
  | .mk _ _ _ _ _ _ h => h

end OSCQueryNode

/-- A leaf node as built by `OSCQueryNode(full_path)` — every other
attribute left at its `None` default (used for synthesized parents,
node.py line 228). -/
def leafNode (p : String) : OSCQueryNode :=
  .mk none (some (.str p)) none none none none none

mutual

def nodeBEq : OSCQueryNode → OSCQueryNode → Bool
  | .mk c f a t v d h, .mk c' f' a' t' v' d' h' =>
    nodeOptListBEq c c' && f == f' && a == a' && t == t' && v == v' &&
      d == d' && h == h'

def nodeOptListBEq :
    Option (List OSCQueryNode) → Option (List OSCQueryNode) → Bool
  | none, none => true
  | some xs, some ys => nodeListBEq xs ys
  | _, _ => false

def nodeListBEq : List OSCQueryNode → List OSCQueryNode → Bool
  | [], [] => true
  | x :: xs, y :: ys => nodeBEq x y && nodeListBEq xs ys
  | _, _ => false

end

mutual

theorem nodeBEq_iff : ∀ a b : OSCQueryNode, nodeBEq a b = true ↔ a = b
  | .mk c f a t v d h, .mk c' f' a' t' v' d' h' => by
      simp [nodeBEq, nodeOptListBEq_iff c c', and_assoc]

theorem nodeOptListBEq_iff :
    ∀ a b : Option (List OSCQueryNode), nodeOptListBEq a b = true ↔ a = b
  | none, none => by simp [nodeOptListBEq]
  | some xs, some ys => by simp [nodeOptListBEq, nodeListBEq_iff xs ys]
  | none, some _ => by simp [nodeOptListBEq]
  | some _, none => by simp [nodeOptListBEq]

theorem nodeListBEq_iff :
    ∀ a b : List OSCQueryNode, nodeListBEq a b = true ↔ a = b
  | [], [] => by simp [nodeListBEq]
  | x :: xs, y :: ys => by
      simp [nodeListBEq, nodeBEq_iff x y, nodeListBEq_iff xs ys]
  | [], _ :: _ => by simp [nodeListBEq]
  | _ :: _, [] => by simp [nodeListBEq]

end

instance : DecidableEq OSCQueryNode := fun a b =>
  decidable_of_iff _ (nodeBEq_iff a b)

/-! ## Tree lookup and insertion (node.py lines 172-233) -/

mutual

/-- `OSCQueryNode.find_subnode`: depth-first search returning the first
node (the receiver included) whose `full_path` equals `p` exactly. -/
def find_subnode (n : OSCQueryNode) (p : String) : Option OSCQueryNode :=
  match n with
  | .mk co fp a t v d h =>
    if fp = some (.str p) then some (.mk co fp a t v d h)
    else
      match co with
      | none => none
      | some cs => findInContents cs p

/-- The `for sub_node in self.contents` loop of `find_subnode`: first
child whose subtree contains the path wins. -/
def findInContents : List OSCQueryNode → String → Option OSCQueryNode
  | [], _ => none
  | c :: cs, p =>
    match find_subnode c p with
    | some r => some r
    | none => findInContents cs p

end

mutual

/-- The mutation `parent.contents.append(child)` performed on the node
`self.find_subnode(parent_path)` aliases, as a pure update: append `child`
to the contents of the *first* node in depth-first order whose `full_path`
is `p` (creating the contents list if `None`, node.py lines 231-233).
`none` when no node has that path. -/
def appendAt (n : OSCQueryNode) (p : String) (child : OSCQueryNode) :
    Option OSCQueryNode :=
  match n with
  | .mk co fp a t v d h =>
    if fp = some (.str p) then
      some (.mk (some ((co.getD []) ++ [child])) fp a t v d h)
    else
      match co with
      | none => none
      | some cs =>
        match appendAtList cs p child with
        | some cs' => some (.mk (some cs') fp a t v d h)
        | none => none

def appendAtList :
    List OSCQueryNode → String → OSCQueryNode → Option (List OSCQueryNode)
  | [], _, _ => none
  | c :: cs, p, child =>
    match appendAt c p child with
    | some c' => some (c' :: cs)
    | none =>
      match appendAtList cs p child with
      | some cs' => some (c :: cs')
      | none => none

end

mutual

/-- The `full_path` values of all nodes in pre-order (`__iter__` order:
node before children, children in list order), with multiplicity; a node
whose `full_path` is `None` contributes nothing. -/
def pathsOf : OSCQueryNode → List Json
  | .mk co fp _ _ _ _ _ =>
    (match fp with | some j => [j] | none => []) ++
      (match co with | some cs => pathsOfList cs | none => [])

def pathsOfList : List OSCQueryNode → List Json
  | [] => []
  | c :: cs => pathsOf c ++ pathsOfList cs

end

/-- `full_path.rsplit("/", 1)` on the character list of the path: splits at
the *last* `'/'`; `none` models the single-element result (no separator at
all, `len(path_split) < 2`). -/
def lastSlashSplit : List Char → Option (List Char × List Char)
  | [] => none
  | c :: rest =>
    match lastSlashSplit rest with
    | some (a, b) => some (c :: a, b)
    | none => if c = '/' then some ([], rest) else none

/-- The parent path computed by `add_child_node` (node.py lines 213-223):
everything before the last `'/'`, with the empty result normalized to
`"/"`; `none` when the path has no `'/'` at all. -/
def parentPathOf (p : String) : Option String :=
  match lastSlashSplit p.toList with
  | none => none
  | some (a, _) => some (if a = [] then "/" else String.mk a)

example : parentPathOf "/a/b/c" = some "/a/b" := by decide
example : parentPathOf "/a" = some "/" := by decide
example : parentPathOf "/" = some "/" := by decide
example : parentPathOf "abc" = none := by decide

/-- `OSCQueryNode.add_child_node` (node.py lines 200-233).  `fuel` bounds
the recursion depth (Python's recursion limit); `childIsSelf` models the
`child == self` identity guard of line 210 — identity, not path equality,
since `OSCQueryNode` defines no `__eq__`.  The recursive call for a
synthesized parent passes a freshly allocated node, never identical to the
receiver, hence `false`. -/
def add_child_node :
    Nat → Bool → OSCQueryNode → OSCQueryNode → Except PyErr OSCQueryNode
  | 0, _, _, _ => .error .recursionError
  | _ + 1, true, root, _ => .ok root
  | fuel + 1, false, root, child =>
    match child.full_path with
    | some (.str p) =>
      match parentPathOf p with
      | none =>
        .error (.nodeError "Tried to add child node with invalid full path!")
      | some parent_path =>
        match find_subnode root parent_path with
        | some _ =>
          match appendAt root parent_path child with
          | some root' => .ok root'
          | none => .error .unreachableBranch
        | none =>
          match add_child_node fuel false root (leafNode parent_path) with
          | .error e => .error e
          | .ok root1 =>
            match appendAt root1 parent_path child with
            | some root' => .ok root'
            | none => .error .unreachableBranch
    | some _ =>
      .error (.attributeError "rsplit on a non-str full_path")
    | none =>
      .error (.attributeError "rsplit on None")

/-! ## Encoder (`OSCNodeEncoder`, node.py lines 8-116) -/

/-- `full_path.split("/")[-1]`: the last `/`-separated segment (the whole
string when it has no `/`). -/
def lastSegment (s : String) : String :=
  match lastSlashSplit s.toList with
  | some (_, b) => String.mk b
  | none => s

example : lastSegment "/a/b/c" = "c" := by decide
example : lastSegment "/a" = "a" := by decide

/-- Insertion into the dict built by the `CONTENTS` dict comprehension
(node.py lines 77-81): a repeated key keeps its first position but takes
the later value, as Python dict insertion does. -/
def dictInsert (d : List (String × Json)) (k : String) (v : Json) :
    List (String × Json) :=
  if d.any (fun kv => kv.1 == k) then
    d.map (fun kv => if kv.1 == k then (k, v) else kv)
  else d ++ [(k, v)]

/-- `_serialize_osc_host_info` (node.py lines 94-116): the upper-cased
slots of the host info in `vars` order, `None` slots omitted.  Serializing
a bound method (see `PyVal.boundMethodGetIpStr`) makes `json.dumps` raise
`TypeError`. -/
def encodeHostInfoFields :
    List (String × PyVal) → Except PyErr (List (String × Json))
  | [] => .ok []
  | (_, .pyNone) :: rest => encodeHostInfoFields rest
  | (k, .js j) :: rest =>
    match encodeHostInfoFields rest with
    | .error e => .error e
    | .ok r => .ok ((k, j) :: r)
  | (_, .boundMethodGetIpStr _) :: _ =>
    .error (.typeError "Object of type method is not JSON serializable")

/-- `OSCHostInfo.to_json` body: serialize the host info to a JSON object. -/
def encodeHostInfo (h : OSCHostInfo) : Except PyErr Json :=
  match encodeHostInfoFields
      [("NAME", h.name), ("OSC_IP", h.osc_ip), ("OSC_PORT", h.osc_port),
       ("OSC_TRANSPORT", h.osc_transport), ("WS_IP", h.ws_ip),
       ("WS_PORT", h.ws_port), ("EXTENSIONS", h.extensions)] with
  | .error e => .error e
  | .ok fs => .ok (.obj fs)

/-- One optional upper-cased field of the node dictionary: present exactly
when the attribute is not `None`. -/
def optField (k : String) : Option Json → List (String × Json)
  | some j => [(k, j)]
  | none => []

/-- Assembles `_serialize_osc_query_node`'s dictionary from the already
encoded `CONTENTS` entry: the `vars` order is `CONTENTS`, `FULL_PATH`,
`ACCESS`, `VALUE`, `DESCRIPTION`, `HOST_INFO` (with `type_` filtered out),
then line 71 *always* adds a `TYPE` key at the end — the encoded type
string when `type_` is non-empty, and `None` (emitted as JSON `null`)
otherwise. -/
def finishNode (contentsField : List (String × Json)) (fp a : Option Json)
    (ty : Option (List PyType)) (va : Option (List Json)) (de : Option Json)
    (hi : Option OSCHostInfo) : Except PyErr Json :=
  let tyField : Json :=
    match ty with
    | some (t :: ts) => .str (Python_Type_List_to_OSC_Type (t :: ts))
    | _ => .null
  let valueField : List (String × Json) :=
    match va with
    | some l => [("VALUE", Json.arr l)]
    | none => []
  match hi with
  | none =>
    .ok (.obj (contentsField ++ optField "FULL_PATH" fp ++
      optField "ACCESS" a ++ valueField ++ optField "DESCRIPTION" de ++
      [("TYPE", tyField)]))
  | some h =>
    match encodeHostInfo h with
    | .error e => .error e
    | .ok hj =>
      .ok (.obj (contentsField ++ optField "FULL_PATH" fp ++
        optField "ACCESS" a ++ valueField ++ optField "DESCRIPTION" de ++
        [("HOST_INFO", hj)] ++ [("TYPE", tyField)]))

mutual

/-- `_serialize_osc_query_node` (node.py lines 49-92), composed with
`json.dumps`: the node as a JSON object.  A `contents` of `None` emits no
`CONTENTS` key; an *empty* list fails the `if o.contents:` truthiness test
and is emitted as the raw empty JSON array; a non-empty list is emitted as
the object keyed by each child's last path segment. -/
def encodeNode : OSCQueryNode → Except PyErr Json
  | .mk co fp a ty va de hi =>
    match co with
    | none => finishNode [] fp a ty va de hi
    | some [] => finishNode [("CONTENTS", Json.arr [])] fp a ty va de hi
    | some (c :: cs) =>
      match encodeContentsGo [] (c :: cs) with
      | .error e => .error e
      | .ok d => finishNode [("CONTENTS", Json.obj d)] fp a ty va de hi

/-- The `CONTENTS` dict comprehension (node.py lines 77-81): children in
list order, keyed by last path segment; a child whose `full_path` is
`None` is skipped; `split` on a non-`str` path raises `AttributeError`. -/
def encodeContentsGo (acc : List (String × Json)) :
    List OSCQueryNode → Except PyErr (List (String × Json))
  | [] => .ok acc
  | c :: cs =>
    match c.full_path with
    | some (.str s) =>
      match encodeNode c with
      | .error e => .error e
      | .ok cj => encodeContentsGo (dictInsert acc (lastSegment s) cj) cs
    | some _ => .error (.attributeError "split on a non-str full_path")
    | none => encodeContentsGo acc cs

end

/-! ## Decoder (`OSCQueryClient._make_node_from_json`, query.py lines
293-343) -/

/-- `json[k]` / `"k" in json` support: the raw value stored under the
first occurrence of `k` (a dict produced by `json.loads` has unique keys,
so taking the first occurrence is exact on every reachable input). -/
def lookupKey (fields : List (String × Json)) (k : String) : Option Json :=
  match fields.find? (fun kv => kv.1 == k) with
  | some kv => some kv.2
  | none => none

/-- `json.get(k)`: `None` both when the key is absent and when its value
is JSON `null` (Python decodes `null` to `None`). -/
def pyGet (fields : List (String × Json)) (k : String) : Option Json :=
  match lookupKey fields k with
  | some .null => none
  | r => r

mutual

/-- Python `repr` of a decoded JSON value (used by `str()` coercion on
collections). -/
def pyRepr : Json → String
  | .null => "None"
  | .bool true => "True"
  | .bool false => "False"
  | .num n => toString n
  | .flt n => toString n ++ ".0"
  | .str s => "\x27" ++ s ++ "\x27"
  | .arr xs => "[" ++ pyReprList xs ++ "]"
  | .obj fs => "\x7b" ++ pyReprFields fs ++ "\x7d"

def pyReprList : List Json → String
  | [] => ""
  | [x] => pyRepr x
  | x :: y :: rest => pyRepr x ++ ", " ++ pyReprList (y :: rest)

def pyReprFields : List (String × Json) → String
  | [] => ""
  | [(k, v)] => "\x27" ++ k ++ "\x27: " ++ pyRepr v
  | (k, v) :: f :: rest =>
    "\x27" ++ k ++ "\x27: " ++ pyRepr v ++ ", " ++ pyReprFields (f :: rest)

end

/-- Python `str()` of a decoded JSON value. -/
def pyStr : Json → String
  | .str s => s
  | v => pyRepr v

/-- Python truthiness of a decoded JSON value. -/
def pyTruthy : Json → Bool
  | .null => false
  | .bool b => b
  | .num n => n != 0
  | .flt n => n != 0
  | .str s => s != ""
  | .arr xs => !xs.isEmpty
  | .obj fs => !fs.isEmpty

/-- `new_node.type_[i](v)` — calling a Python type on a decoded JSON
value.  `int()`/`float()` accept numbers, bools and numeric strings
(string literals are modelled for integral values only, which no claim
exercises); `bool()` never fails; `str()` never fails. -/
def pyCoerce : PyType → Json → Except PyErr Json
  | .int, .num n => .ok (.num n)
  | .int, .flt n => .ok (.num n)
  | .int, .bool b => .ok (.num (if b then 1 else 0))
  | .int, .str s =>
    match s.toInt? with
    | some n => .ok (.num n)
    | none => .error (.valueError "invalid literal for int() with base 10")
  | .int, _ => .error (.typeError "int() argument")
  | .float, .num n => .ok (.flt n)
  | .float, .flt n => .ok (.flt n)
  | .float, .bool b => .ok (.flt (if b then 1 else 0))
  | .float, .str s =>
    match s.toInt? with
    | some n => .ok (.flt n)
    | none => .error (.valueError "could not convert string to float")
  | .float, _ => .error (.typeError "float() argument")
  | .bool, v => .ok (.bool (pyTruthy v))
  | .str, v => .ok (.str (pyStr v))

/-- `type_map[tag]` where `tag` is a full Python string (reached when the
`TYPE` field is a JSON array or object rather than a string): only the
eight one-character keys are mapped; a `KeyError` is re-raised as
`ValueError`. -/
def strTagToType (s : String) : Except PyErr PyType :=
  match s.toList with
  | [c] =>
    match OSC_TO_PYTHON_TYPES c with
    | some t => .ok t
    | none => .error (.valueError "Unknown OSC type when converting!")
  | _ => .error (.valueError "Unknown OSC type when converting!")

/-- Iterating a `TYPE` value that decoded to a JSON array: strings are
looked up whole; lists and dicts are unhashable (`TypeError`); anything
else is a hashable non-key (`KeyError`, re-raised as `ValueError`). -/
def decodeTypeArray : List Json → Except PyErr (List PyType)
  | [] => .ok []
  | .str s :: rest =>
    match strTagToType s with
    | .error e => .error e
    | .ok t =>
      match decodeTypeArray rest with
      | .error e => .error e
      | .ok ts => .ok (t :: ts)
  | .arr _ :: _ => .error (.typeError "unhashable type")
  | .obj _ :: _ => .error (.typeError "unhashable type")
  | _ :: _ => .error (.valueError "Unknown OSC type when converting!")

/-- The `TYPE` handling (query.py lines 326-329): absent key means
`type_ = None`; a present key is fed raw to
`OSC_Type_String_to_Python_Type`, so a JSON `null` (Python `None`) raises
`TypeError` when iterated, a string is mapped per character, an array or
object is iterated (elements / keys looked up whole), and a number or
bool is not iterable. -/
def decodeTypeField : Option Json → Except PyErr (Option (List PyType))
  | none => .ok none
  | some (.str s) =>
    match OSC_Type_String_to_Python_Type s with
    | .error e => .error e
    | .ok ts => .ok (some ts)
  | some .null => .error (.typeError "argument of type NoneType is not iterable")
  | some (.arr xs) =>
    match decodeTypeArray xs with
    | .error e => .error e
    | .ok ts => .ok (some ts)
  | some (.obj fs) =>
    match decodeTypeArray (fs.map (fun kv => Json.str kv.1)) with
    | .error e => .error e
    | .ok ts => .ok (some ts)
  | some _ => .error (.typeError "is not iterable")

/-- The shape check of query.py lines 308-313: a present, non-`null`,
non-array `VALUE` raises `ValueError`; `null` passes because `json.get`
returns `None` for it. -/
def checkValueShape : Option Json → Except PyErr Unit
  | some .null => .ok ()
  | some (.arr _) => .ok ()
  | some _ =>
    .error (.valueError "OSCQuery JSON Value is not List / Array? Out-of-spec?")
  | none => .ok ()

/-- `type_` truthiness: `None` and the empty list are falsy. -/
def typeFalsy : Option (List PyType) → Bool
  | none => true
  | some [] => true
  | some (_ :: _) => false

/-- The `VALUE` list comprehension (query.py lines 333-336): element `v`
at index `i` is *skipped* when it is a bare empty JSON object (the
"no value yet" sentinel) or when `type_` is falsy; otherwise it is coerced
by `new_node.type_[i]` — the kind at the element's original index — with
`IndexError` when the type list is shorter than the value array. -/
def decodeValueGo (ty : Option (List PyType)) (i : Nat) :
    List Json → Except PyErr (List Json)
  | [] => .ok []
  | v :: rest =>
    if v = Json.obj [] ∨ typeFalsy ty = true then decodeValueGo ty (i + 1) rest
    else
      match ty with
      | some l =>
        match l.get? i with
        | none => .error (.indexError "list index out of range")
        | some t =>
          match pyCoerce t v with
          | .error e => .error e
          | .ok w =>
            match decodeValueGo ty (i + 1) rest with
            | .error e => .error e
            | .ok ws => .ok (w :: ws)
      | none => .error .unreachableBranch

/-- The `CONTENTS` handling (query.py lines 321-324): an absent key (or a
present *empty* array, over which the `for` loop runs zero times) yields
the empty children list; an object is iterated key by key, each value
decoded recursively; any other shape raises `TypeError` when iterated or
indexed (a non-empty array of integers would index into itself instead —
a corner no real document reaches, collapsed to the error here). -/
def decodeContentsList (dec : Json → Except PyErr OSCQueryNode)
    (fs : List (String × Json)) :
    List (String × Json) → Except PyErr (List OSCQueryNode)
  | [] => .ok []
  | kv :: rest =>
    match dec ((lookupKey fs kv.1).getD Json.null) with
    | .error e => .error e
    | .ok n =>
      match decodeContentsList dec fs rest with
      | .error e => .error e
      | .ok ns => .ok (n :: ns)

/-- `_make_node_from_json`: one JSON document to one node.  `fuel` bounds
the recursion depth (Python's recursion limit).  Order of effects follows
the source: `VALUE` shape check, then `CONTENTS` recursion, then `TYPE`,
then the `VALUE` comprehension. -/
def decodeNode : Nat → Json → Except PyErr OSCQueryNode
  | 0, _ => .error .recursionError
  | fuel + 1, .obj fields =>
    (match checkValueShape (lookupKey fields "VALUE") with
     | .error e => .error e
     | .ok _ =>
       match ((match lookupKey fields "CONTENTS" with
              | none => .ok []
              | some (.obj fs) => decodeContentsList (decodeNode fuel) fs fs
              | some (.arr []) => .ok []
              | some (.str "") => .ok []
              | some _ => .error (.typeError "CONTENTS is not a JSON object")) :
            Except PyErr (List OSCQueryNode)) with
       | .error e => .error e
       | .ok cts =>
         match decodeTypeField (lookupKey fields "TYPE") with
         | .error e => .error e
         | .ok ty =>
           match (match lookupKey fields "VALUE" with
                  | some (.arr xs) => decodeValueGo ty 0 xs
                  | _ => .ok []) with
           | .error e => .error e
           | .ok vs =>
             .ok (.mk (some cts) (pyGet fields "FULL_PATH")
               (pyGet fields "ACCESS") ty (some vs)
               (pyGet fields "DESCRIPTION") none))
  | _ + 1, _ => .error (.attributeError "object has no attribute get")

/-! ## Host-info decoding (`OSCQueryClient.get_host_info`, query.py lines
269-291) -/

/-- A decoded JSON value as a Python slot value (`null` is `None`). -/
def jsToPy : Json → PyVal
  | .null => .pyNone
  | v => .js v

/-- The body of `get_host_info` after the HTTP fetch: `NAME` is mandatory
(`json["NAME"]` raises `KeyError`); `EXTENSIONS` defaults to the Python
*list* `[]`; `OSC_IP` defaults to the **bound method** `self._get_ip_str`
— the call parentheses are missing in the source — carrying the IP string
a call would have produced; `OSC_PORT` defaults to the service port;
`OSC_TRANSPORT` defaults to `"UDP"`; the `ws_*` slots stay `None`. -/
def get_host_info_from_json (j : Json) (fallback_ip : String)
    (fallback_port : Int) : Except PyErr OSCHostInfo :=
  match j with
  | .obj fields =>
    match lookupKey fields "NAME" with
    | none => .error (.keyError "NAME")
    | some nameV =>
      .ok
        { name := jsToPy nameV
          osc_ip :=
            match lookupKey fields "OSC_IP" with
            | some v => jsToPy v
            | none => .boundMethodGetIpStr fallback_ip
          osc_port :=
            match lookupKey fields "OSC_PORT" with
            | some v => jsToPy v
            | none => .js (.num fallback_port)
          osc_transport :=
            match lookupKey fields "OSC_TRANSPORT" with
            | some v => jsToPy v
            | none => .js (.str "UDP")
          ws_ip := .pyNone
          ws_port := .pyNone
          extensions :=
            match lookupKey fields "EXTENSIONS" with
            | some v => jsToPy v
            | none => .js (.arr []) }
  | _ => .error (.typeError "object is not subscriptable")

/-! ## HTTP GET dispatch (`OSCQueryHTTPHandler.do_GET`, queryservice.py
lines 242-267) -/

/-- An HTTP response body: a serialized JSON document or plain text. -/
inductive HTTPBody where
  | js (j : Json)
  | txt (s : String)
deriving DecidableEq, Repr

/-- `needle in haystack` on strings as character lists: contiguous
substring containment. -/
def strContains (needle : List Char) : List Char → Bool
  | [] => needle.isEmpty
  | c :: rest => needle.isPrefixOf (c :: rest) || strContains needle rest

example : strContains "HOST_INFO".toList "/xHOST_INFOy".toList = true := by
  decide
example : strContains "HOST_INFO".toList "/avatar".toList = false := by
  decide

/-- `do_GET` against one tree and one host info: a request path
*containing* the substring `HOST_INFO` is answered with the encoded host
info; any other path is looked up by exact full-path match — `200` with
the encoded node on a hit, `404` with a plain-text body on a miss. -/
def do_GET (root : OSCQueryNode) (hi : OSCHostInfo) (path : String) :
    Except PyErr (Nat × HTTPBody) :=
  if strContains "HOST_INFO".toList path.toList then
    match encodeHostInfo hi with
    | .error e => .error e
    | .ok j => .ok (200, .js j)
  else
    match find_subnode root path with
    | none => .ok (404, .txt "OSC Path not found")
    | some n =>
      match encodeNode n with
      | .error e => .error e
      | .ok j => .ok (200, .js j)

/-! ## Theorems -/

/-- The canonicalization a decode/re-encode performs on a recognized tag:
the float-family synonyms `h`, `d`, `t` collapse to `f`, and `F` collapses
to `T`; every other character is left unchanged. -/
def canonicalTag (c : Char) : Char :=
  if c = 'h' ∨ c = 'd' ∨ c = 't' then 'f'
  else if c = 'F' then 'T'
  else c

theorem tagToKind_canonical (c : Char) (t : PyType)
    (h : OSC_TO_PYTHON_TYPES c = some t) :
    PYTHON_TO_OSC_TYPES t = canonicalTag c := by
  unfold OSC_TO_PYTHON_TYPES at h
  split_ifs at h with h1 h2 h3 h4
  · cases h
    subst h1
    decide
  · cases h
    rcases h2 with h2 | h2 | h2 | h2 <;> subst h2 <;> decide
  · cases h
    rcases h3 with h3 | h3 <;> subst h3 <;> decide
  · cases h
    subst h4
    decide

theorem oscCharsToPython_canonical :
    ∀ (cs : List Char) (ks : List PyType), oscCharsToPython cs = .ok ks →
      ks.map PYTHON_TO_OSC_TYPES = cs.map canonicalTag := by
  intro cs
  induction cs with
  | nil => intro ks h; cases h; rfl
  | cons c cs ih =>
    intro ks h
    unfold oscCharsToPython at h
    cases hc : OSC_TO_PYTHON_TYPES c with
    | none => rw [hc] at h; cases h
    | some t =>
      rw [hc] at h
      cases hr : oscCharsToPython cs with
      | error e => rw [hr] at h; cases h
      | ok ts =>
        rw [hr] at h
        cases h
        simp [ih ts hr, tagToKind_canonical c t hc]

/-- **C8**: for every canonical tag in `{i, f, T, s}` the kind → tag map
inverts the tag → kind map exactly; and re-encoding any successfully
decoded type string yields the original string with each of `h`, `d`, `t`
replaced by `f` and `F` replaced by `T` (all other characters, `i`, `f`,
`T`, `s` included, fixed). -/
theorem c8_type_round_trip :
    (∀ c t, c ∈ ['i', 'f', 'T', 's'] → OSC_TO_PYTHON_TYPES c = some t →
      PYTHON_TO_OSC_TYPES t = c) ∧
    (∀ s ks, OSC_Type_String_to_Python_Type s = .ok ks →
      Python_Type_List_to_OSC_Type ks = String.mk (s.toList.map canonicalTag)) := by
  constructor
  · intro c t hc hm
    rw [tagToKind_canonical c t hm]
    fin_cases hc <;> decide
  · intro s ks h
    unfold Python_Type_List_to_OSC_Type
    rw [oscCharsToPython_canonical s.toList ks h]

/-- Witness for C8 at concrete inputs: the canonical tags round-trip and
`"ifhdtTFs"` re-encodes to `"iffffTTs"`. -/
theorem c8_type_round_trip_witness :
    PYTHON_TO_OSC_TYPES PyType.int = 'i' ∧
    Python_Type_List_to_OSC_Type
      [.int, .float, .float, .float, .float, .bool, .bool, .str] =
      "iffffTTs" := by
  constructor
  · exact c8_type_round_trip.1 'i' PyType.int (by decide) (by decide)
  · have h := c8_type_round_trip.2 "ifhdtTFs"
      [.int, .float, .float, .float, .float, .bool, .bool, .str] (by decide)
    rw [h]
    decide

/-- **C3** (the code contradicts this claim): node.py line 71 assigns the
`TYPE` key *unconditionally* — `None` when `type_` is `None` or empty — so
the encoded document of every type-less node carries `"TYPE": null`
instead of omitting the key.  First conjunct: for every childless node
without `type_`, the emitted object contains the pair `("TYPE", null)`.
Second conjunct: the full document at a concrete failing input. -/
theorem c3_encoder_emits_type_null :
    (∀ fp a va de, ∃ fs,
      encodeNode (.mk none fp a none va de none) = .ok (.obj fs) ∧
      ("TYPE", Json.null) ∈ fs) ∧
    encodeNode (.mk none (some (.str "/x")) none none none none none) =
      .ok (.obj [("FULL_PATH", .str "/x"), ("TYPE", .null)]) := by
  constructor
  · intro fp a va de
    refine ⟨_, rfl, ?_⟩
    simp [finishNode, optField]
  · decide

/-- The tree of the C1 scenario: the service root (`OSCQueryNode("/",
description="root node")`, queryservice.py line 44) ... -/
def c1Root : OSCQueryNode :=
  .mk none (some (.str "/")) none none none (some (.str "root node")) none

/-- ... and one inserted node carrying value, access and description
(as built by `advertise_endpoint("/a/b", 7, READWRITE)` plus a
description). -/
def c1Child : OSCQueryNode :=
  .mk none (some (.str "/a/b")) (some (.num 3)) (some [.int])
    (some [.num 7]) (some (.str "a value node")) none

/-- **C1** (code bug): the insertion and the encoding both succeed, but
decoding the encoder's own output crashes: the root (and the synthesized
`/a` parent) has no `type_`, the encoder therefore emits `"TYPE": null`
(node.py line 71), `"TYPE" in json` is then true (query.py line 328), and
`OSC_Type_String_to_Python_Type(None)` raises `TypeError` iterating
`None`.  So `decode(encode(tree))` fails instead of round-tripping. -/
theorem c1_round_trip_crashes :
    isOkE (add_child_node 6 false c1Root c1Child) = true ∧
    isOkE ((add_child_node 6 false c1Root c1Child).bind encodeNode) = true ∧
    ((add_child_node 6 false c1Root c1Child).bind encodeNode).bind
        (decodeNode 9) =
      .error (.typeError "argument of type NoneType is not iterable") := by
  decide

theorem pyCoerce_ne_empty_obj (t : PyType) (v w : Json)
    (h : pyCoerce t v = .ok w) : w ≠ Json.obj [] := by
  cases t <;> cases v <;>
    first
      | (simp only [pyCoerce] at h; split at h <;> (try cases h) <;> simp_all)
      | (simp [pyCoerce] at h; subst h; simp)
      | (simp [pyCoerce] at h)

theorem decodeValueGo_no_sentinel :
    ∀ (ty : Option (List PyType)) (i : Nat) (xs vs : List Json),
      decodeValueGo ty i xs = .ok vs → Json.obj [] ∉ vs := by
  intro ty i xs
  induction xs generalizing i with
  | nil => intro vs h; cases h; simp
  | cons v rest ih =>
    intro vs h
    unfold decodeValueGo at h
    split at h
    · exact ih (i + 1) vs h
    · split at h
      · split at h
        · cases h
        · split at h
          · cases h
          · split at h
            · cases h
            · cases h
              rename_i x1 t hget x2 w hco x3 ws hrest
              simp only [List.mem_cons, not_or]
              exact ⟨fun hw => pyCoerce_ne_empty_obj t v w hco hw.symm,
                ih (i + 1) ws hrest⟩
      · cases h

/-- **C2 counterexample**: the claim says an empty-object sentinel
anywhere in `VALUE` makes the decoder discard the *entire* array.  On
`{"TYPE":"ii","VALUE":[{},5]}` — whose array contains a bare empty object
at position 0 — the decoder instead keeps the other slot: `values` decodes
to `[5]`, a partially-populated array, not `[]`. -/
theorem c2_counterexample :
    Json.obj [] ∈ [Json.obj [], Json.num 5] ∧
    decodeNode 2 (.obj [("TYPE", .str "ii"),
        ("VALUE", .arr [.obj [], .num 5])]) =
      .ok (.mk (some []) none none (some [.int, .int]) (some [.num 5])
        none none) ∧
    some [Json.num 5] ≠ some ([] : List Json) := by
  decide

/-- **C2 amended**: the decoder discards only the empty-object *slots*:
each bare `{}` element contributes nothing, every other element is coerced
by the kind at its original index, and the decoded `values` never contains
an empty object.  In particular `{"TYPE":"ii","VALUE":[{}]}` yields
`valueKinds = [int, int]` and `values = []`, while
`{"TYPE":"ii","VALUE":[{},5]}` yields the partially-populated `[5]`. -/
theorem c2_amended :
    (∀ fuel s kinds xs node,
      OSC_Type_String_to_Python_Type s = .ok kinds →
      decodeNode (fuel + 1)
          (.obj [("TYPE", .str s), ("VALUE", .arr xs)]) = .ok node →
      node.type_ = some kinds ∧
      ∃ vs, decodeValueGo (some kinds) 0 xs = .ok vs ∧
        node.value = some vs ∧ Json.obj [] ∉ vs) ∧
    decodeNode 2 (.obj [("TYPE", .str "ii"), ("VALUE", .arr [.obj []])]) =
      .ok (.mk (some []) none none (some [.int, .int]) (some []) none none) ∧
    decodeNode 2 (.obj [("TYPE", .str "ii"),
        ("VALUE", .arr [.obj [], .num 5])]) =
      .ok (.mk (some []) none none (some [.int, .int]) (some [.num 5])
        none none) := by
  refine ⟨?_, by decide, by decide⟩
  intro fuel s kinds xs node hs hd
  have hV : lookupKey [("TYPE", Json.str s), ("VALUE", Json.arr xs)]
      "VALUE" = some (.arr xs) := rfl
  have hT : lookupKey [("TYPE", Json.str s), ("VALUE", Json.arr xs)]
      "TYPE" = some (.str s) := rfl
  have hC : lookupKey [("TYPE", Json.str s), ("VALUE", Json.arr xs)]
      "CONTENTS" = none := rfl
  simp only [decodeNode, hV, hT, hC, checkValueShape, decodeTypeField] at hd
  rw [hs] at hd
  simp only at hd
  cases hgo : decodeValueGo (some kinds) 0 xs with
  | error e => rw [hgo] at hd; cases hd
  | ok vs =>
    rw [hgo] at hd
    cases hd
    exact ⟨rfl, vs, rfl, rfl, decodeValueGo_no_sentinel _ _ _ _ hgo⟩

/-- Witness for C2's amended theorem at the concrete mixed array. -/
theorem c2_amended_witness :
    (OSCQueryNode.mk (some []) none none (some [.int, .int])
        (some [.num 5]) none none).type_ = some [PyType.int, PyType.int] ∧
    ∃ vs, decodeValueGo (some [PyType.int, PyType.int]) 0
        [Json.obj [], Json.num 5] = .ok vs ∧
      (OSCQueryNode.mk (some []) none none (some [.int, .int])
        (some [.num 5]) none none).value = some vs ∧ Json.obj [] ∉ vs :=
  c2_amended.1 1 "ii" [.int, .int] [Json.obj [], Json.num 5]
    (.mk (some []) none none (some [.int, .int]) (some [.num 5]) none none)
    (by decide) (by decide)

/-- **C7** (code bug): decoding `{"NAME":"X"}` with fallback IP and port.
`osc_port` and `osc_transport` take their documented defaults, but
`extensions` defaults to the Python *list* `[]` (not an empty mapping:
query.py line 286 passes `[]` although `OSCHostInfo` declares
`dict[str, bool]`), and `osc_ip` is set to the **bound method**
`self._get_ip_str` itself — query.py line 287 lacks the call parentheses —
instead of the fallback IP string. -/
theorem c7_host_info_defaults (ip : String) (port : Int) :
    get_host_info_from_json (.obj [("NAME", .str "X")]) ip port =
      .ok ⟨.js (.str "X"), .boundMethodGetIpStr ip, .js (.num port),
        .js (.str "UDP"), .pyNone, .pyNone, .js (.arr [])⟩ ∧
    PyVal.boundMethodGetIpStr ip ≠ .js (.str ip) ∧
    (Json.arr [] : Json) ≠ .obj [] ∧
    get_host_info_from_json (.obj []) ip port = .error (.keyError "NAME") := by
  exact ⟨rfl, by simp, by decide, rfl⟩

/-- **C10**: a successfully decoded node always has a present (possibly
empty) children list and values list — `CONTENTS` absent gives `some []`,
`VALUE` absent gives `some []` — while `full_path`, `access`,
`description` and `type_` are `None` exactly when their keys are missing
from the source document. -/
theorem c10_decoded_presence :
    ∀ fuel j node, decodeNode fuel j = .ok node →
      node.contents ≠ none ∧ node.value ≠ none ∧
      ∀ fields, j = .obj fields →
        (lookupKey fields "CONTENTS" = none → node.contents = some []) ∧
        (lookupKey fields "VALUE" = none → node.value = some []) ∧
        (lookupKey fields "FULL_PATH" = none → node.full_path = none) ∧
        (lookupKey fields "ACCESS" = none → node.access = none) ∧
        (lookupKey fields "DESCRIPTION" = none → node.description = none) ∧
        (lookupKey fields "TYPE" = none → node.type_ = none) := by
  intro fuel j node h
  cases fuel with
  | zero => cases h
  | succ n =>
    cases j with
    | obj fields =>
      simp only [decodeNode] at h
      split at h
      · cases h
      · split at h
        · cases h
        · rename_i cts heqc
          split at h
          · cases h
          · rename_i ty heqt
            split at h
            · cases h
            · rename_i vs heqv
              cases h
              refine ⟨by simp [OSCQueryNode.contents],
                by simp [OSCQueryNode.value], ?_⟩
              intro fields' hf
              cases hf
              refine ⟨?_, ?_, ?_, ?_, ?_, ?_⟩
              · intro hc
                rw [hc] at heqc
                cases heqc
                simp [OSCQueryNode.contents]
              · intro hv
                rw [hv] at heqv
                cases heqv
                simp [OSCQueryNode.value]
              · intro hfp
                simp [OSCQueryNode.full_path, pyGet, hfp]
              · intro ha
                simp [OSCQueryNode.access, pyGet, ha]
              · intro hd
                simp [OSCQueryNode.description, pyGet, hd]
              · intro ht
                rw [ht] at heqt
                cases heqt
                simp [OSCQueryNode.type_]
    | null => cases h
    | bool b => cases h
    | num m => cases h
    | flt m => cases h
    | str s => cases h
    | arr xs => cases h

/-- Witness for C10: decoding the empty document. -/
theorem c10_decoded_presence_witness :
    (OSCQueryNode.mk (some []) none none none (some []) none none).contents
        ≠ none ∧
    (OSCQueryNode.mk (some []) none none none (some []) none
        none).full_path = none := by
  have h := c10_decoded_presence 1 (Json.obj [])
    (.mk (some []) none none none (some []) none none) (by decide)
  exact ⟨h.1, (h.2.2 [] rfl).2.2.1 rfl⟩

/-! ### Lemmas about `find_subnode`, `appendAt` and `pathsOf` -/

theorem pathsOfList_append (l1 l2 : List OSCQueryNode) :
    pathsOfList (l1 ++ l2) = pathsOfList l1 ++ pathsOfList l2 := by
  induction l1 with
  | nil => simp [pathsOfList]
  | cons c cs ih => simp [pathsOfList, ih]

mutual

theorem find_subnode_eq_none_iff :
    ∀ (t : OSCQueryNode) (p : String),
      find_subnode t p = none ↔ Json.str p ∉ pathsOf t
  | .mk none fp a ty va de hi, p => by
    by_cases hfp : fp = some (Json.str p)
    · simp [find_subnode, pathsOf, hfp]
    · simp only [find_subnode, pathsOf, if_neg hfp, pathsOfList]
      cases fp with
      | none => simp
      | some j =>
        simp only [List.append_nil, List.mem_singleton]
        constructor
        · intro _ hq; exact hfp (by rw [hq])
        · intro _; trivial
  | .mk (some cs) fp a ty va de hi, p => by
    have h := findInContents_eq_none_iff cs p
    by_cases hfp : fp = some (Json.str p)
    · simp [find_subnode, pathsOf, hfp]
    · simp only [find_subnode, pathsOf, if_neg hfp]
      cases fp with
      | none => simpa using h
      | some j =>
        simp only [List.mem_append, List.mem_singleton]
        constructor
        · intro hnone hor
          rcases hor with hq | hmem
          · exact hfp (by rw [hq])
          · exact (h.mp hnone) hmem
        · intro hnot
          exact h.mpr (fun hmem => hnot (Or.inr hmem))

theorem findInContents_eq_none_iff :
    ∀ (l : List OSCQueryNode) (p : String),
      findInContents l p = none ↔ Json.str p ∉ pathsOfList l
  | [], p => by simp [findInContents, pathsOfList]
  | c :: cs, p => by
    simp only [findInContents, pathsOfList, List.mem_append]
    have h1 := find_subnode_eq_none_iff c p
    have h2 := findInContents_eq_none_iff cs p
    cases hf : find_subnode c p with
    | some r =>
      have : ¬ (Json.str p ∉ pathsOf c) := by
        intro hn
        rw [h1.mpr hn] at hf
        cases hf
      simp only [not_or]
      constructor
      · intro hnone; cases hnone
      · intro hand; exact absurd hand.1 this
    | none =>
      have hc : Json.str p ∉ pathsOf c := h1.mp hf
      simp only [not_or]
      constructor
      · intro hnone; exact ⟨hc, h2.mp hnone⟩
      · intro hand; exact h2.mpr hand.2

end

/-! Unfolding equations for the tree functions, each definitional. -/

theorem find_subnode_none_eq (fp a ty va de hi : _) (p : String) :
    find_subnode (.mk none fp a ty va de hi) p =
      if fp = some (.str p) then some (.mk none fp a ty va de hi)
      else none := rfl

theorem find_subnode_some_eq (cs : List OSCQueryNode) (fp a ty va de hi : _)
    (p : String) :
    find_subnode (.mk (some cs) fp a ty va de hi) p =
      if fp = some (.str p) then some (.mk (some cs) fp a ty va de hi)
      else findInContents cs p := rfl

theorem findInContents_cons_eq (c1 : OSCQueryNode) (cs : List OSCQueryNode)
    (p : String) :
    findInContents (c1 :: cs) p =
      match find_subnode c1 p with
      | some r => some r
      | none => findInContents cs p := rfl

theorem appendAt_none_eq (fp a ty va de hi : _) (p : String)
    (c : OSCQueryNode) :
    appendAt (.mk none fp a ty va de hi) p c =
      if fp = some (.str p) then some (.mk (some ([] ++ [c])) fp a ty va de hi)
      else none := rfl

theorem appendAt_some_eq (cs : List OSCQueryNode) (fp a ty va de hi : _)
    (p : String) (c : OSCQueryNode) :
    appendAt (.mk (some cs) fp a ty va de hi) p c =
      if fp = some (.str p) then some (.mk (some (cs ++ [c])) fp a ty va de hi)
      else
        match appendAtList cs p c with
        | some cs2 => some (.mk (some cs2) fp a ty va de hi)
        | none => none := rfl

theorem appendAtList_cons_eq (c1 : OSCQueryNode) (cs : List OSCQueryNode)
    (p : String) (c : OSCQueryNode) :
    appendAtList (c1 :: cs) p c =
      match appendAt c1 p c with
      | some c2 => some (c2 :: cs)
      | none =>
        match appendAtList cs p c with
        | some cs2 => some (c1 :: cs2)
        | none => none := rfl

theorem pathsOf_none_eq (fp a ty va de hi : _) :
    pathsOf (.mk none fp a ty va de hi) =
      (match fp with | some j => [j] | none => []) := by
  cases fp <;> rfl

theorem pathsOf_some_eq (cs : List OSCQueryNode) (fp a ty va de hi : _) :
    pathsOf (.mk (some cs) fp a ty va de hi) =
      (match fp with | some j => [j] | none => []) ++ pathsOfList cs := rfl

mutual

theorem appendAt_eq_none_iff :
    ∀ (t : OSCQueryNode) (p : String) (c : OSCQueryNode),
      appendAt t p c = none ↔ find_subnode t p = none
  | .mk none fp a ty va de hi, p, c => by
    rw [appendAt_none_eq, find_subnode_none_eq]
    by_cases hfp : fp = some (Json.str p)
    · rw [if_pos hfp, if_pos hfp]
      simp
    · rw [if_neg hfp, if_neg hfp]
  | .mk (some cs) fp a ty va de hi, p, c => by
    have h := appendAtList_eq_none_iff cs p c
    rw [appendAt_some_eq, find_subnode_some_eq]
    by_cases hfp : fp = some (Json.str p)
    · rw [if_pos hfp, if_pos hfp]
      simp
    · rw [if_neg hfp, if_neg hfp]
      cases hl : appendAtList cs p c with
      | none => simp [h.mp hl]
      | some cs2 =>
        have hf : findInContents cs p ≠ none := by
          intro hfc
          rw [h.mpr hfc] at hl
          cases hl
        cases hfc : findInContents cs p with
        | none => exact absurd hfc hf
        | some r => simp

theorem appendAtList_eq_none_iff :
    ∀ (l : List OSCQueryNode) (p : String) (c : OSCQueryNode),
      appendAtList l p c = none ↔ findInContents l p = none
  | [], p, c => by simp [appendAtList, findInContents]
  | c1 :: cs, p, c => by
    have h1 := appendAt_eq_none_iff c1 p c
    have h2 := appendAtList_eq_none_iff cs p c
    rw [appendAtList_cons_eq, findInContents_cons_eq]
    cases ha : appendAt c1 p c with
    | some c2 =>
      have hf : find_subnode c1 p ≠ none := by
        intro hfc
        rw [h1.mpr hfc] at ha
        cases ha
      cases hfc : find_subnode c1 p with
      | none => exact absurd hfc hf
      | some r => simp
    | none =>
      rw [h1.mp ha]
      cases hl : appendAtList cs p c with
      | none => simp [h2.mp hl]
      | some cs2 =>
        have hf : findInContents cs p ≠ none := by
          intro hfc
          rw [h2.mpr hfc] at hl
          cases hl
        cases hfc : findInContents cs p with
        | none => exact absurd hfc hf
        | some r => simp

end

mutual

theorem appendAt_paths :
    ∀ (t : OSCQueryNode) (p : String) (c t2 : OSCQueryNode),
      appendAt t p c = some t2 →
      List.Perm (pathsOf t2) (pathsOf t ++ pathsOf c)
  | .mk none fp a ty va de hi, p, c, t2 => by
    intro h
    rw [appendAt_none_eq] at h
    by_cases hfp : fp = some (Json.str p)
    · rw [if_pos hfp] at h
      cases h
      rw [pathsOf_some_eq, pathsOf_none_eq, pathsOfList_append]
      simp [pathsOfList]
    · rw [if_neg hfp] at h
      cases h
  | .mk (some cs) fp a ty va de hi, p, c, t2 => by
    intro h
    rw [appendAt_some_eq] at h
    by_cases hfp : fp = some (Json.str p)
    · rw [if_pos hfp] at h
      cases h
      rw [pathsOf_some_eq, pathsOf_some_eq, pathsOfList_append]
      simp [pathsOfList, List.append_assoc]
    · rw [if_neg hfp] at h
      cases hl : appendAtList cs p c with
      | none => rw [hl] at h; cases h
      | some cs2 =>
        rw [hl] at h
        cases h
        have hp := appendAtList_paths cs p c cs2 hl
        rw [pathsOf_some_eq, pathsOf_some_eq, List.append_assoc]
        exact hp.append_left _

theorem appendAtList_paths :
    ∀ (l : List OSCQueryNode) (p : String) (c : OSCQueryNode)
      (l2 : List OSCQueryNode),
      appendAtList l p c = some l2 →
      List.Perm (pathsOfList l2) (pathsOfList l ++ pathsOf c)
  | [], p, c, l2 => by intro h; cases h
  | c1 :: cs, p, c, l2 => by
    intro h
    rw [appendAtList_cons_eq] at h
    cases ha : appendAt c1 p c with
    | some c2 =>
      rw [ha] at h
      cases h
      have hp := appendAt_paths c1 p c c2 ha
      have e1 : pathsOfList (c2 :: cs) = pathsOf c2 ++ pathsOfList cs := by
        simp [pathsOfList]
      have e2 : pathsOfList (c1 :: cs) = pathsOf c1 ++ pathsOfList cs := by
        simp [pathsOfList]
      rw [e1, e2, List.append_assoc]
      refine (hp.append_right _).trans ?_
      rw [List.append_assoc]
      exact (List.perm_append_comm).append_left _
    | none =>
      rw [ha] at h
      cases hl : appendAtList cs p c with
      | none => rw [hl] at h; cases h
      | some cs2 =>
        rw [hl] at h
        cases h
        have hp := appendAtList_paths cs p c cs2 hl
        have e1 : pathsOfList (c1 :: cs2) = pathsOf c1 ++ pathsOfList cs2 := by
          simp [pathsOfList]
        have e2 : pathsOfList (c1 :: cs) = pathsOf c1 ++ pathsOfList cs := by
          simp [pathsOfList]
        rw [e1, e2, List.append_assoc]
        exact hp.append_left _

end

mutual

theorem appendAt_find :
    ∀ (t : OSCQueryNode) (p : String) (c t2 : OSCQueryNode),
      appendAt t p c = some t2 →
      ∃ q l, find_subnode t2 p = some q ∧ q.contents = some (l ++ [c])
  | .mk none fp a ty va de hi, p, c, t2 => by
    intro h
    rw [appendAt_none_eq] at h
    by_cases hfp : fp = some (Json.str p)
    · rw [if_pos hfp] at h
      cases h
      refine ⟨.mk (some ([] ++ [c])) fp a ty va de hi, [], ?_, rfl⟩
      rw [find_subnode_some_eq, if_pos hfp]
    · rw [if_neg hfp] at h
      cases h
  | .mk (some cs) fp a ty va de hi, p, c, t2 => by
    intro h
    rw [appendAt_some_eq] at h
    by_cases hfp : fp = some (Json.str p)
    · rw [if_pos hfp] at h
      cases h
      refine ⟨.mk (some (cs ++ [c])) fp a ty va de hi, cs, ?_, rfl⟩
      rw [find_subnode_some_eq, if_pos hfp]
    · rw [if_neg hfp] at h
      cases hl : appendAtList cs p c with
      | none => rw [hl] at h; cases h
      | some cs2 =>
        rw [hl] at h
        cases h
        obtain ⟨q, l, hfind, hcont⟩ := appendAtList_find cs p c cs2 hl
        refine ⟨q, l, ?_, hcont⟩
        rw [find_subnode_some_eq, if_neg hfp, hfind]

theorem appendAtList_find :
    ∀ (cs : List OSCQueryNode) (p : String) (c : OSCQueryNode)
      (cs2 : List OSCQueryNode),
      appendAtList cs p c = some cs2 →
      ∃ q l, findInContents cs2 p = some q ∧ q.contents = some (l ++ [c])
  | [], p, c, cs2 => by intro h; cases h
  | c1 :: cs, p, c, cs2 => by
    intro h
    rw [appendAtList_cons_eq] at h
    cases ha : appendAt c1 p c with
    | some c2 =>
      rw [ha] at h
      cases h
      obtain ⟨q, l, hfind, hcont⟩ := appendAt_find c1 p c c2 ha
      refine ⟨q, l, ?_, hcont⟩
      rw [findInContents_cons_eq, hfind]
    | none =>
      rw [ha] at h
      cases hl : appendAtList cs p c with
      | none => rw [hl] at h; cases h
      | some cs3 =>
        rw [hl] at h
        cases h
        obtain ⟨q, l, hfind, hcont⟩ := appendAtList_find cs p c cs3 hl
        have hf1 : find_subnode c1 p = none :=
          (appendAt_eq_none_iff c1 p c).mp ha
        refine ⟨q, l, ?_, hcont⟩
        rw [findInContents_cons_eq, hf1, hfind]

end

/-- One definitional unfolding step of `add_child_node` for a fresh child
whose path is a string. -/
theorem add_child_node_step (n : Nat) (t : OSCQueryNode)
    (co : Option (List OSCQueryNode)) (p : String) (a ty va de hi : _) :
    add_child_node (n + 1) false t (.mk co (some (.str p)) a ty va de hi) =
      match parentPathOf p with
      | none =>
        .error (.nodeError "Tried to add child node with invalid full path!")
      | some parent_path =>
        match find_subnode t parent_path with
        | some _ =>
          match appendAt t parent_path
              (.mk co (some (.str p)) a ty va de hi) with
          | some root2 => .ok root2
          | none => .error .unreachableBranch
        | none =>
          match add_child_node n false t (leafNode parent_path) with
          | .error e => .error e
          | .ok root1 =>
            match appendAt root1 parent_path
                (.mk co (some (.str p)) a ty va de hi) with
            | some root2 => .ok root2
            | none => .error .unreachableBranch := rfl

theorem lastSlashSplit_eq :
    ∀ (l a b : List Char), lastSlashSplit l = some (a, b) →
      l = a ++ '/' :: b := by
  intro l
  induction l with
  | nil => intro a b h; cases h
  | cons c rest ih =>
    intro a b h
    unfold lastSlashSplit at h
    cases hr : lastSlashSplit rest with
    | some ab =>
      obtain ⟨a0, b0⟩ := ab
      rw [hr] at h
      injection h with h2
      have h3 : c :: a0 = a := congrArg Prod.fst h2
      have h4 : b0 = b := congrArg Prod.snd h2
      subst h3
      subst h4
      rw [List.cons_append, ih a0 b0 hr]
    | none =>
      rw [hr] at h
      by_cases hc : c = '/'
      · rw [if_pos hc] at h
        injection h with h2
        have h3 : ([] : List Char) = a := congrArg Prod.fst h2
        have h4 : rest = b := congrArg Prod.snd h2
        subst h3
        subst h4
        rw [hc]
        rfl
      · rw [if_neg hc] at h
        cases h

theorem parentPathOf_length (p pp : String) (h : parentPathOf p = some pp) :
    pp = "/" ∨ pp.toList.length < p.toList.length := by
  unfold parentPathOf at h
  cases hs : lastSlashSplit p.toList with
  | none => rw [hs] at h; cases h
  | some ab =>
    obtain ⟨a, b⟩ := ab
    rw [hs] at h
    injection h with h2
    by_cases ha : a = []
    · left
      rw [← h2, if_pos ha]
    · right
      rw [← h2, if_neg ha]
      have he := lastSlashSplit_eq p.toList a b hs
      have hml : (String.mk a).toList = a := rfl
      rw [hml, he]
      simp [List.length_append]

/-- `add_child_node` once the parent path is known: dispatch on whether a
node at the parent path already exists. -/
theorem add_child_node_eq_parent (n : Nat) (t : OSCQueryNode)
    (co : Option (List OSCQueryNode)) (p pp : String) (a ty va de hi : _)
    (hpp : parentPathOf p = some pp) :
    add_child_node (n + 1) false t (.mk co (some (.str p)) a ty va de hi) =
      match find_subnode t pp with
      | some _ =>
        match appendAt t pp (.mk co (some (.str p)) a ty va de hi) with
        | some root2 => .ok root2
        | none => .error .unreachableBranch
      | none =>
        match add_child_node n false t (leafNode pp) with
        | .error e => .error e
        | .ok root1 =>
          match appendAt root1 pp (.mk co (some (.str p)) a ty va de hi) with
          | some root2 => .ok root2
          | none => .error .unreachableBranch := by
  rw [add_child_node_step, hpp]

/-- `add_child_node` when the parent path resolves and the parent is
found: the child is appended at the parent's node. -/
theorem add_child_node_eq_of_found (n : Nat) (t : OSCQueryNode)
    (co : Option (List OSCQueryNode)) (p pp : String) (a ty va de hi : _)
    (q : OSCQueryNode) (hpp : parentPathOf p = some pp)
    (hfind : find_subnode t pp = some q) :
    add_child_node (n + 1) false t (.mk co (some (.str p)) a ty va de hi) =
      match appendAt t pp (.mk co (some (.str p)) a ty va de hi) with
      | some root2 => .ok root2
      | none => .error .unreachableBranch := by
  rw [add_child_node_eq_parent n t co p pp a ty va de hi hpp, hfind]

/-- `add_child_node` when the parent path resolves but no parent exists:
a placeholder parent is inserted recursively, then the child appended. -/
theorem add_child_node_eq_of_missing (n : Nat) (t : OSCQueryNode)
    (co : Option (List OSCQueryNode)) (p pp : String) (a ty va de hi : _)
    (hpp : parentPathOf p = some pp)
    (hfind : find_subnode t pp = none) :
    add_child_node (n + 1) false t (.mk co (some (.str p)) a ty va de hi) =
      match add_child_node n false t (leafNode pp) with
      | .error e => .error e
      | .ok root1 =>
        match appendAt root1 pp (.mk co (some (.str p)) a ty va de hi) with
        | some root2 => .ok root2
        | none => .error .unreachableBranch := by
  rw [add_child_node_eq_parent n t co p pp a ty va de hi hpp, hfind]

/-- Inserting a node whose path is `"/"` into a tree that has no node at
`"/"` can never succeed: the parent path of `"/"` is `"/"` again, so the
synthesis recursion never terminates and Python's recursion limit (the
fuel) is exhausted. -/
theorem insert_slash_fails :
    ∀ (fuel : Nat) (t c t2 : OSCQueryNode),
      Json.str "/" ∉ pathsOf t → c.full_path = some (.str "/") →
      add_child_node fuel false t c ≠ .ok t2 := by
  intro fuel
  induction fuel with
  | zero =>
    intro t c t2 hmem hfp h
    simp [add_child_node] at h
  | succ n ih =>
    intro t c t2 hmem hfp h
    cases c with
    | mk co2 fp2 a2 ty2 va2 de2 hi2 =>
      simp only [OSCQueryNode.full_path] at hfp
      subst hfp
      rw [add_child_node_eq_of_missing n t co2 "/" "/" a2 ty2 va2 de2 hi2
        rfl ((find_subnode_eq_none_iff t "/").mpr hmem)] at h
      cases hrec : add_child_node n false t (leafNode "/") with
      | error e =>
        rw [hrec] at h
        have h2 : (Except.error e : Except PyErr OSCQueryNode) = .ok t2 := h
        exact Except.noConfusion h2
      | ok t1 => exact ih t (leafNode "/") t1 hmem rfl hrec

/-- The inductive heart of the uniqueness analysis: inserting a childless
node with a fresh string path `p` into a duplicate-free tree yields a
duplicate-free tree that contains `p`, and every path of the new tree is
an old path, `p` itself, or a synthesized ancestor path shorter than
`p`. -/
theorem add_child_node_paths :
    ∀ (fuel : Nat) (t c : OSCQueryNode) (p : String) (t2 : OSCQueryNode),
      (pathsOf t).Nodup → c.full_path = some (.str p) → c.contents = none →
      Json.str p ∉ pathsOf t →
      add_child_node fuel false t c = .ok t2 →
      (pathsOf t2).Nodup ∧ Json.str p ∈ pathsOf t2 ∧
        ∀ j ∈ pathsOf t2, j ∈ pathsOf t ∨ j = .str p ∨
          ∃ q : String, j = .str q ∧ q.toList.length < p.toList.length := by
  intro fuel
  induction fuel with
  | zero =>
    intro t c p t2 _ _ _ _ h
    simp [add_child_node] at h
  | succ n ih =>
    intro t c p t2 hnd hfp hco hmem h
    cases c with
    | mk co2 fp2 a2 ty2 va2 de2 hi2 =>
      simp only [OSCQueryNode.full_path] at hfp
      simp only [OSCQueryNode.contents] at hco
      subst hfp
      subst hco
      have hpc :
          pathsOf (.mk none (some (.str p)) a2 ty2 va2 de2 hi2) =
            [Json.str p] := rfl
      cases hpp : parentPathOf p with
      | none =>
        rw [add_child_node_step, hpp] at h
        have h2 : (Except.error (PyErr.nodeError
            "Tried to add child node with invalid full path!") :
            Except PyErr OSCQueryNode) = .ok t2 := h
        exact Except.noConfusion h2
      | some pp =>
        cases hfind : find_subnode t pp with
        | some q =>
          rw [add_child_node_eq_of_found n t none p pp a2 ty2 va2 de2 hi2 q
            hpp hfind] at h
          cases happ : appendAt t pp
              (.mk none (some (.str p)) a2 ty2 va2 de2 hi2) with
          | none =>
            rw [happ] at h
            have h2 : (Except.error PyErr.unreachableBranch :
                Except PyErr OSCQueryNode) = .ok t2 := h
            exact Except.noConfusion h2
          | some t3 =>
            rw [happ] at h
            have h2 : (Except.ok t3 : Except PyErr OSCQueryNode) = .ok t2 := h
            cases h2
            have hperm := appendAt_paths t pp _ t2 happ
            rw [hpc] at hperm
            refine ⟨?_, ?_, ?_⟩
            · refine hperm.nodup_iff.mpr ?_
              simp [List.nodup_append, hnd, hmem]
            · exact hperm.mem_iff.mpr (by simp)
            · intro j hj
              rcases List.mem_append.mp (hperm.mem_iff.mp hj) with hj1 | hj2
              · exact Or.inl hj1
              · exact Or.inr (Or.inl (by simpa using hj2))
        | none =>
          rw [add_child_node_eq_of_missing n t none p pp a2 ty2 va2 de2 hi2
            hpp hfind] at h
          cases hrec : add_child_node n false t (leafNode pp) with
          | error e =>
            rw [hrec] at h
            have h2 : (Except.error e : Except PyErr OSCQueryNode) =
              .ok t2 := h
            exact Except.noConfusion h2
          | ok t1 =>
            rw [hrec] at h
            have h3 : (match appendAt t1 pp
                  (.mk none (some (.str p)) a2 ty2 va2 de2 hi2) with
                | some root2 => Except.ok root2
                | none =>
                  (Except.error PyErr.unreachableBranch :
                    Except PyErr OSCQueryNode)) = Except.ok t2 := h
            by_cases hpps : pp = "/"
            · exfalso
              refine insert_slash_fails n t (leafNode pp) t1 ?_ ?_ hrec
              · rw [← hpps]
                exact (find_subnode_eq_none_iff t pp).mp hfind
              · rw [hpps]
                rfl
            · have hlen : pp.toList.length < p.toList.length := by
                rcases parentPathOf_length p pp hpp with h1 | h1
                · exact absurd h1 hpps
                · exact h1
              have hmempp : Json.str pp ∉ pathsOf t :=
                (find_subnode_eq_none_iff t pp).mp hfind
              obtain ⟨hnd1, hin1, hsub1⟩ :=
                ih t (leafNode pp) pp t1 hnd rfl rfl hmempp hrec
              have hp_t1 : Json.str p ∉ pathsOf t1 := by
                intro hp1
                rcases hsub1 (Json.str p) hp1 with hin | heq | ⟨q, hq, hql⟩
                · exact hmem hin
                · have hppe : p = pp := by injection heq
                  rw [hppe] at hlen
                  exact lt_irrefl _ hlen
                · have hqe : p = q := by injection hq
                  subst hqe
                  exact lt_irrefl _ (hql.trans hlen)
              cases happ : appendAt t1 pp
                  (.mk none (some (.str p)) a2 ty2 va2 de2 hi2) with
              | none =>
                rw [happ] at h3
                have h2 : (Except.error PyErr.unreachableBranch :
                    Except PyErr OSCQueryNode) = .ok t2 := h3
                exact Except.noConfusion h2
              | some t3 =>
                rw [happ] at h3
                have h2 : (Except.ok t3 : Except PyErr OSCQueryNode) =
                  .ok t2 := h3
                cases h2
                have hperm := appendAt_paths t1 pp _ t2 happ
                rw [hpc] at hperm
                refine ⟨?_, ?_, ?_⟩
                · refine hperm.nodup_iff.mpr ?_
                  simp [List.nodup_append, hnd1, hp_t1]
                · exact hperm.mem_iff.mpr (by simp)
                · intro j hj
                  rcases List.mem_append.mp (hperm.mem_iff.mp hj)
                    with hj1 | hj2
                  · rcases hsub1 j hj1 with hin | heq | ⟨q, hq, hql⟩
                    · exact Or.inl hin
                    · exact Or.inr (Or.inr ⟨pp, heq, hlen⟩)
                    · exact Or.inr (Or.inr ⟨q, hq, hql.trans hlen⟩)
                  · exact Or.inr (Or.inl (by simpa using hj2))

/-- The second node of the C6 counterexample: a *distinct* node (different
description) carrying the same path `/a`. -/
def c6dupNode : OSCQueryNode :=
  .mk none (some (.str "/a")) none none none (some (.str "B")) none

/-- The tree after inserting `/a` twice into a bare root. -/
def c6tree : OSCQueryNode :=
  .mk (some [leafNode "/a", c6dupNode]) (some (.str "/")) none none none
    none none

/-- **C6 counterexample**: insertion never checks for an existing node at
the inserted path — inserting two distinct nodes that both carry the path
`/a` succeeds and leaves both reachable from the root, so `fullPath` is
not unique within the tree. -/
theorem c6_counterexample :
    (add_child_node 5 false (leafNode "/") (leafNode "/a")).bind
      (fun t => add_child_node 5 false t c6dupNode) = .ok c6tree ∧
    pathsOf c6tree = [.str "/", .str "/a", .str "/a"] ∧
    ¬ (pathsOf c6tree).Nodup ∧
    leafNode "/a" ≠ c6dupNode := by
  decide

/-- **C6 amended**: path uniqueness is an invariant only of insertions at
*fresh* paths: inserting a childless node whose string path is not already
present in a duplicate-free tree yields a duplicate-free tree (synthesized
ancestors included); inserting at an existing path breaks uniqueness, as
the counterexample shows. -/
theorem c6_unique_paths_of_fresh (fuel : Nat) (t c : OSCQueryNode)
    (p : String) (t2 : OSCQueryNode) (hnd : (pathsOf t).Nodup)
    (hfp : c.full_path = some (.str p)) (hco : c.contents = none)
    (hmem : Json.str p ∉ pathsOf t)
    (h : add_child_node fuel false t c = .ok t2) :
    (pathsOf t2).Nodup :=
  (add_child_node_paths fuel t c p t2 hnd hfp hco hmem h).1

/-- Witness for the amended C6 at a concrete fresh insertion. -/
theorem c6_unique_paths_of_fresh_witness :
    (pathsOf (.mk (some [leafNode "/a"]) (some (.str "/")) none none none
      none none : OSCQueryNode)).Nodup :=
  c6_unique_paths_of_fresh 5 (leafNode "/") (leafNode "/a") "/a"
    (.mk (some [leafNode "/a"]) (some (.str "/")) none none none none none)
    (by decide) rfl rfl (by decide) (by decide)

/-- The nodes of the C4 scenario: inserting `/a/b/c` into a tree holding
only the root `/` synthesizes `/a` and `/a/b`. -/
def c4ab : OSCQueryNode :=
  .mk (some [leafNode "/a/b/c"]) (some (.str "/a/b")) none none none
    none none

def c4a : OSCQueryNode :=
  .mk (some [c4ab]) (some (.str "/a")) none none none none none

def c4tree : OSCQueryNode :=
  .mk (some [c4a]) (some (.str "/")) none none none none none

/-- **C4**: inserting `/a/b/c` into a root-only tree synthesizes the
missing ancestors `/a` and `/a/b` as valueless placeholders — afterwards
`/a`, `/a/b` and `/a/b/c` are all findable and `/a/b`'s children are
exactly `[/a/b/c]`; a deeper insertion (`/a/b/c/d/e`) synthesizes four
ancestors the same way; and in general every successful insertion ends by
appending the inserted node to the children of the node found at its
parent path. -/
theorem c4_ancestor_synthesis :
    (add_child_node 5 false (leafNode "/") (leafNode "/a/b/c") =
        .ok c4tree ∧
      find_subnode c4tree "/a" = some c4a ∧
      find_subnode c4tree "/a/b" = some c4ab ∧
      find_subnode c4tree "/a/b/c" = some (leafNode "/a/b/c") ∧
      c4ab.contents = some [leafNode "/a/b/c"] ∧
      (add_child_node 9 false (leafNode "/") (leafNode "/a/b/c/d/e")).map
          (fun t => [(find_subnode t "/a").isSome,
            (find_subnode t "/a/b").isSome,
            (find_subnode t "/a/b/c").isSome,
            (find_subnode t "/a/b/c/d").isSome,
            (find_subnode t "/a/b/c/d/e").isSome]) =
        .ok [true, true, true, true, true]) ∧
    (∀ (fuel : Nat) (t : OSCQueryNode) (co : Option (List OSCQueryNode))
        (p pp : String) (a ty va de hi : _) (t2 : OSCQueryNode),
      parentPathOf p = some pp →
      add_child_node (fuel + 1) false t
          (.mk co (some (.str p)) a ty va de hi) = .ok t2 →
      ∃ q l, find_subnode t2 pp = some q ∧
        q.contents =
          some (l ++ [(.mk co (some (.str p)) a ty va de hi :
            OSCQueryNode)])) := by
  constructor
  · refine ⟨by decide, by decide, by decide, by decide, by decide, by decide⟩
  · intro fuel t co p pp a ty va de hi t2 hpar h
    cases hfind : find_subnode t pp with
    | some q0 =>
      rw [add_child_node_eq_of_found fuel t co p pp a ty va de hi q0
        hpar hfind] at h
      cases happ : appendAt t pp (.mk co (some (.str p)) a ty va de hi) with
      | none =>
        rw [happ] at h
        have h2 : (Except.error PyErr.unreachableBranch :
            Except PyErr OSCQueryNode) = .ok t2 := h
        exact Except.noConfusion h2
      | some t3 =>
        rw [happ] at h
        have h2 : (Except.ok t3 : Except PyErr OSCQueryNode) = .ok t2 := h
        cases h2
        exact appendAt_find t pp _ t2 happ
    | none =>
      rw [add_child_node_eq_of_missing fuel t co p pp a ty va de hi
        hpar hfind] at h
      cases hrec : add_child_node fuel false t (leafNode pp) with
      | error e =>
        rw [hrec] at h
        have h2 : (Except.error e : Except PyErr OSCQueryNode) = .ok t2 := h
        exact Except.noConfusion h2
      | ok t1 =>
        rw [hrec] at h
        have h3 : (match appendAt t1 pp
              (.mk co (some (.str p)) a ty va de hi) with
            | some root2 => Except.ok root2
            | none =>
              (Except.error PyErr.unreachableBranch :
                Except PyErr OSCQueryNode)) = Except.ok t2 := h
        cases happ : appendAt t1 pp
            (.mk co (some (.str p)) a ty va de hi) with
        | none =>
          rw [happ] at h3
          have h2 : (Except.error PyErr.unreachableBranch :
              Except PyErr OSCQueryNode) = .ok t2 := h3
          exact Except.noConfusion h2
        | some t3 =>
          rw [happ] at h3
          have h2 : (Except.ok t3 : Except PyErr OSCQueryNode) = .ok t2 := h3
          cases h2
          exact appendAt_find t1 pp _ t2 happ

/-- Witness for C4's general conjunct at the concrete `/a/b/c` insertion. -/
theorem c4_ancestor_synthesis_witness :
    ∃ q l, find_subnode c4tree "/a/b" = some q ∧
      q.contents = some (l ++ [leafNode "/a/b/c"]) :=
  c4_ancestor_synthesis.2 4 (leafNode "/") none "/a/b/c" "/a/b"
    none none none none none c4tree (by decide) (by decide)

/-- **C5 counterexample**: the no-op guard of `add_child_node` is object
*identity* (`child == self` with no `__eq__` defined), not path equality —
inserting a fresh node whose path equals the root's path `/` appends it as
a child of the root, changing the tree. -/
theorem c5_counterexample :
    add_child_node 5 false (leafNode "/") (leafNode "/") =
      .ok (.mk (some [leafNode "/"]) (some (.str "/")) none none none
        none none) ∧
    (OSCQueryNode.mk (some [leafNode "/"]) (some (.str "/")) none none none
      none none) ≠ leafNode "/" := by
  decide

/-- **C5 amended**: inserting is a no-op only when the inserted node *is*
the root object itself (identity); a distinct node whose `full_path`
equals the root path `/` is instead appended to the root's children. -/
theorem c5_self_insert :
    (∀ (fuel : Nat) (root child : OSCQueryNode),
      add_child_node (fuel + 1) true root child = .ok root) ∧
    (∀ (fuel : Nat) (co : Option (List OSCQueryNode)) (a ty va de hi : _)
        (co2 : Option (List OSCQueryNode)) (a2 ty2 va2 de2 hi2 : _),
      add_child_node (fuel + 1) false
          (.mk co (some (.str "/")) a ty va de hi)
          (.mk co2 (some (.str "/")) a2 ty2 va2 de2 hi2) =
        .ok (.mk (some ((co.getD []) ++
            [.mk co2 (some (.str "/")) a2 ty2 va2 de2 hi2]))
          (some (.str "/")) a ty va de hi)) := by
  constructor
  · intro fuel root child
    rfl
  · intro fuel co a ty va de hi co2 a2 ty2 va2 de2 hi2
    have hfind : find_subnode (.mk co (some (.str "/")) a ty va de hi) "/" =
        some (.mk co (some (.str "/")) a ty va de hi) := by
      cases co with
      | none => rw [find_subnode_none_eq, if_pos rfl]
      | some cs => rw [find_subnode_some_eq, if_pos rfl]
    rw [add_child_node_eq_of_found fuel _ co2 "/" "/" a2 ty2 va2 de2 hi2 _
      rfl hfind]
    have happ : appendAt (.mk co (some (.str "/")) a ty va de hi) "/"
        (.mk co2 (some (.str "/")) a2 ty2 va2 de2 hi2) =
        some (.mk (some ((co.getD []) ++
            [.mk co2 (some (.str "/")) a2 ty2 va2 de2 hi2]))
          (some (.str "/")) a ty va de hi) := by
      cases co with
      | none =>
        rw [appendAt_none_eq, if_pos rfl]
        rfl
      | some cs =>
        rw [appendAt_some_eq, if_pos rfl]
        rfl
    rw [happ]

/-- Witness for C5's amended theorem at concrete nodes. -/
theorem c5_self_insert_witness :
    add_child_node 1 true (leafNode "/") (leafNode "/") =
      .ok (leafNode "/") ∧
    add_child_node 1 false (leafNode "/") (leafNode "/") =
      .ok (.mk (some [leafNode "/"]) (some (.str "/")) none none none
        none none) :=
  ⟨c5_self_insert.1 0 (leafNode "/") (leafNode "/"),
   c5_self_insert.2 0 none none none none none none
     none none none none none none⟩

/-- A concrete host info for the C9 scenario (as built at service start,
queryservice.py lines 45-52, with all-JSON slots). -/
def c9hi : OSCHostInfo :=
  ⟨.js (.str "X"), .js (.str "1.2.3.4"), .js (.num 90), .js (.str "UDP"),
   .pyNone, .pyNone, .js (.obj [])⟩

/-- **C9 counterexample**: dispatch to the host-info answer tests
`'HOST_INFO' in self.path` — substring containment, not equality with
`/HOST_INFO`.  The path `/xHOST_INFO` matches no node (lookup is `none`),
yet the server answers `200` with the host-info document instead of the
claimed `404` from exact-path lookup. -/
theorem c9_counterexample :
    find_subnode (leafNode "/") "/xHOST_INFO" = none ∧
    do_GET (leafNode "/") c9hi "/xHOST_INFO" =
      .ok (200, .js (.obj [("NAME", .str "X"), ("OSC_IP", .str "1.2.3.4"),
        ("OSC_PORT", .num 90), ("OSC_TRANSPORT", .str "UDP"),
        ("EXTENSIONS", .obj [])])) ∧
    (200 : Nat) ≠ 404 := by
  decide

/-- **C9 amended**: a GET whose path *contains* the substring `HOST_INFO`
is answered with the encoded host info; any other path is resolved by
exact full-path lookup — `200` with the encoded node document on a hit and
`404` with the plain-text body `OSC Path not found` on a miss. -/
theorem c9_dispatch :
    (∀ root hi path, strContains "HOST_INFO".toList path.toList = true →
      do_GET root hi path =
        match encodeHostInfo hi with
        | .error e => .error e
        | .ok j => .ok (200, .js j)) ∧
    (∀ root hi path n, strContains "HOST_INFO".toList path.toList = false →
      find_subnode root path = some n →
      do_GET root hi path =
        match encodeNode n with
        | .error e => .error e
        | .ok j => .ok (200, .js j)) ∧
    (∀ root hi path, strContains "HOST_INFO".toList path.toList = false →
      find_subnode root path = none →
      do_GET root hi path = .ok (404, .txt "OSC Path not found")) := by
  have hneg : ∀ path : String,
      strContains "HOST_INFO".toList path.toList = false →
      ¬ (strContains "HOST_INFO".toList path.toList = true) := by
    intro path hc h
    rw [hc] at h
    cases h
  refine ⟨?_, ?_, ?_⟩
  · intro root hi path hc
    unfold do_GET
    rw [if_pos hc]
  · intro root hi path n hc hf
    unfold do_GET
    rw [if_neg (hneg path hc), hf]
  · intro root hi path hc hf
    unfold do_GET
    rw [if_neg (hneg path hc), hf]


/-- Witness for C9's amended theorem: a miss on a plain path. -/
theorem c9_dispatch_witness :
    do_GET (leafNode "/") c9hi "/a" = .ok (404, .txt "OSC Path not found") :=
  c9_dispatch.2.2 (leafNode "/") c9hi "/a" (by decide) (by decide)

end TinyOSC
